import Mathlib

/-!
Verification of the proxy/composition layer of the fast-agent repository,
file src/mcp_agent/core/proxies.py: the `ChainProxy.generate_str` chaining
algorithm (sequential and cumulative modes) and the `RouterProxy.generate_str`
routing policy.

The embedding is shallow: every backend endpoint (a registry entry's
`generate_str`, or an agent's `_llm.generate_str`) is a pure function from a
message and call-time options to either a string reply or a backend error
(`Except`).  The chain and router bodies are translated statement by statement
from the Python source.  To state properties about which backend calls happen
(order, messages, options, call counts), each embedded operation also returns
the list of calls it issued, in order; the untraced operation is its second
projection.  A registry lookup failure (Python `KeyError` from
`self._agent_proxies[name]`) and a backend error are kept apart in the
`ChainError` sum so that both propagation claims are statable.
-/

namespace FastAgent

/-- Call-time keyword options (`**kwargs` in the source), modelled as an
association list of string keys to string values; a call made with no options
carries `[]`, matching a call site that passes no kwargs. -/
abbrev Options := List (String × String)

/-- The behaviour of one backend endpoint as seen through the endpoint
contract: a message and options go in, a string reply or a backend error
comes out. -/
abbrev ProxyFun (ε : Type) := String → Options → Except ε String

/-- The chain's endpoint registry `agent_proxies` (Python dict name → proxy),
modelled as an association list with first-match lookup. -/
abbrev Registry (ε : Type) := List (String × ProxyFun ε)

/-- An error escaping `ChainProxy.generate_str`: either a `KeyError` raised by
the registry indexing `self._agent_proxies[name]`, or an error raised by a
step's backend, carried unchanged. -/
inductive ChainError (ε : Type) where
  | keyError (name : String)
  | stepError (e : ε)
deriving DecidableEq, Repr

/-- One call issued by the chain to a registry entry: the entry's name, the
message passed, and the options passed. -/
structure ChainCall where
  name : String
  message : String
  options : Options
deriving DecidableEq, Repr

variable {ε : Type}

/-- The tagged block `<name>\n{response}\n</name>` built by cumulative mode. -/
def tagBlock (name response : String) : String :=
  "<" ++ name ++ ">\n" ++ response ++ "\n</" ++ name ++ ">"

/-- The sequential-mode loop of `ChainProxy.generate_str` (the `else` branch):
`current_message` is replaced by each step's output; every step is called with
no options.  Returns the calls issued and the final value or first error. -/
def chainSeqLoop (reg : Registry ε) :
    List String → String → List ChainCall × Except (ChainError ε) String
  | [], current_message => ([], .ok current_message)
  | agent_name :: rest, current_message =>
    match reg.lookup agent_name with
    | none => ([], .error (.keyError agent_name))
    | some proxy =>
      match proxy current_message [] with
      | .error e => ([⟨agent_name, current_message, []⟩], .error (.stepError e))
      | .ok response =>
        let next := chainSeqLoop reg rest response
        (⟨agent_name, current_message, []⟩ :: next.1, next.2)

/-- The cumulative-mode loop of `ChainProxy.generate_str`: each step receives
the entire transcript so far (with no options) and its tagged block is
appended with a `\n\n` separator before the next step runs. -/
def chainCumLoop (reg : Registry ε) :
    List String → String → List ChainCall × Except (ChainError ε) String
  | [], cumulative_response => ([], .ok cumulative_response)
  | agent_name :: rest, cumulative_response =>
    match reg.lookup agent_name with
    | none => ([], .error (.keyError agent_name))
    | some proxy =>
      match proxy cumulative_response [] with
      | .error e => ([⟨agent_name, cumulative_response, []⟩], .error (.stepError e))
      | .ok response =>
        let next := chainCumLoop reg rest
          (cumulative_response ++ "\n\n" ++ tagBlock agent_name response)
        (⟨agent_name, cumulative_response, []⟩ :: next.1, next.2)

/-- `ChainProxy.generate_str`, traced.  Mirrors the Python body: empty
sequence returns the message; the first agent is resolved and called with the
original message and all options; a single-entry sequence returns the first
response; otherwise the cumulative or sequential loop runs on the rest. -/
def ChainProxy.generate_strTraced (cumulative : Bool) (sequence : List String)
    (agent_proxies : Registry ε) (message : String) (kwargs : Options) :
    List ChainCall × Except (ChainError ε) String :=
  match sequence with
  | [] => ([], .ok message)
  | first_agent :: rest =>
    match agent_proxies.lookup first_agent with
    | none => ([], .error (.keyError first_agent))
    | some first_proxy =>
      match first_proxy message kwargs with
      | .error e => ([⟨first_agent, message, kwargs⟩], .error (.stepError e))
      | .ok first_response =>
        if rest.isEmpty then
          ([⟨first_agent, message, kwargs⟩], .ok first_response)
        else if cumulative then
          let next := chainCumLoop agent_proxies rest (tagBlock first_agent first_response)
          (⟨first_agent, message, kwargs⟩ :: next.1, next.2)
        else
          let next := chainSeqLoop agent_proxies rest first_response
          (⟨first_agent, message, kwargs⟩ :: next.1, next.2)

/-- `ChainProxy.generate_str`: the value returned to the caller (or the
propagated error). -/
def ChainProxy.generate_str (cumulative : Bool) (sequence : List String)
    (agent_proxies : Registry ε) (message : String) (kwargs : Options) :
    Except (ChainError ε) String :=
  (ChainProxy.generate_strTraced cumulative sequence agent_proxies message kwargs).2

/-- The backend calls `ChainProxy.generate_str` issues, in order. -/
def ChainProxy.calls (cumulative : Bool) (sequence : List String)
    (agent_proxies : Registry ε) (message : String) (kwargs : Options) :
    List ChainCall :=
  (ChainProxy.generate_strTraced cumulative sequence agent_proxies message kwargs).1

/-- The target carried by one element of the router backend's classification
result: an agent-capable endpoint (modelled by its `_llm.generate_str`
behaviour), a plain destination identifier (a string), or any other shape
(kept by its textual representation, used only in the fallback message). -/
inductive RouteTarget (ε : Type) where
  | agent (llm : ProxyFun ε)
  | server (name : String)
  | other (text : String)

/-- One element of the router's classification result: a target, a confidence
score and a reasoning string (both kept as their textual representations,
which is all the layer uses of them). -/
structure RouteResult (ε : Type) where
  result : RouteTarget ε
  confidence : String
  reasoning : String

/-- One delegation call issued by the router to an agent's model-generation
call: the message and the options forwarded. -/
structure RouteCall where
  message : String
  options : Options
deriving DecidableEq, Repr

/-- `RouterProxy.generate_str`, traced: classify the message, then follow the
source's branch order — empty result list, agent target, server target,
fallback — recording any delegation call issued. -/
def RouterProxy.generate_strTraced (route : String → Except ε (List (RouteResult ε)))
    (message : String) (kwargs : Options) : List RouteCall × Except ε String :=
  match route message with
  | .error e => ([], .error e)
  | .ok results =>
    match results with
    | [] => ([], .ok "No appropriate route found for the request.")
    | top_result :: _ =>
      match top_result.result with
      | .agent llm => ([⟨message, kwargs⟩], llm message kwargs)
      | .server _ => ([], .ok "Tool call requested by router - not yet supported")
      | .other text =>
        ([], .ok ("Routed to: " ++ text ++ " (" ++ top_result.confidence ++ "): "
          ++ top_result.reasoning))

/-- `RouterProxy.generate_str`: the value returned to the caller. -/
def RouterProxy.generate_str (route : String → Except ε (List (RouteResult ε)))
    (message : String) (kwargs : Options) : Except ε String :=
  (RouterProxy.generate_strTraced route message kwargs).2

/-- A concrete always-succeeding endpoint used by witnesses: replies with its
tag prepended to the message it received. -/
def okProxy (tag : String) : ProxyFun String :=
  fun s _ => .ok (tag ++ ":" ++ s)

/-- A concrete always-failing endpoint used by witnesses. -/
def failProxy (e : String) : ProxyFun String :=
  fun _ _ => .error e

/-- A concrete registry used by witnesses. -/
def demoReg : Registry String :=
  [("A", okProxy "a"), ("B", okProxy "b"), ("C", okProxy "c"), ("E", failProxy "boom")]

/-- C9: for a chain whose sequence is empty, `generate_str` returns the
message unchanged, in both modes, for every message, and issues zero backend
calls. -/
theorem chain_empty_identity (cumulative : Bool) (reg : Registry ε)
    (m : String) (opts : Options) :
    ChainProxy.generate_strTraced cumulative [] reg m opts = ([], .ok m) :=
  rfl

/-- C5: when the router backend's classification returns an empty result
list, `generate_str` returns exactly the fixed no-route string as a normal
(`.ok`) result and issues no delegation call. -/
theorem router_no_route (route : String → Except ε (List (RouteResult ε)))
    (m : String) (opts : Options) (h : route m = .ok []) :
    RouterProxy.generate_strTraced route m opts =
      ([], .ok "No appropriate route found for the request.") := by
  simp [RouterProxy.generate_strTraced, h]

theorem router_no_route_witness :
    RouterProxy.generate_strTraced (ε := String) (fun _ => .ok []) "hello" [("k", "v")] =
      ([], .ok "No appropriate route found for the request.") :=
  router_no_route (fun _ => .ok []) "hello" [("k", "v")] rfl

/-- C6: when the top classification result's target is a plain destination
identifier (a string), `generate_str` returns exactly the fixed
not-yet-supported string and issues no delegation call, whatever the later
results are. -/
theorem router_server_route (route : String → Except ε (List (RouteResult ε)))
    (m : String) (opts : Options) (top : RouteResult ε) (rest : List (RouteResult ε))
    (s : String) (h : route m = .ok (top :: rest)) (ht : top.result = .server s) :
    RouterProxy.generate_strTraced route m opts =
      ([], .ok "Tool call requested by router - not yet supported") := by
  simp [RouterProxy.generate_strTraced, h, ht]

theorem router_server_route_witness :
    RouterProxy.generate_strTraced (ε := String)
      (fun _ => .ok [⟨.server "filesys", "0.9", "server fits"⟩]) "hello" [] =
      ([], .ok "Tool call requested by router - not yet supported") :=
  router_server_route (fun _ => .ok [⟨.server "filesys", "0.9", "server fits"⟩])
    "hello" [] ⟨.server "filesys", "0.9", "server fits"⟩ [] "filesys" rfl rfl

/-- C7: when the classification result is non-empty and its first element's
target is an agent, `generate_str` consults only that first element (the
conclusion does not depend on `rest`), issues exactly one delegation call
carrying the original message and all call-time options, and returns that
call's result directly. -/
theorem router_agent_delegate (route : String → Except ε (List (RouteResult ε)))
    (m : String) (opts : Options) (top : RouteResult ε) (rest : List (RouteResult ε))
    (llm : ProxyFun ε) (h : route m = .ok (top :: rest)) (ht : top.result = .agent llm) :
    RouterProxy.generate_strTraced route m opts = ([⟨m, opts⟩], llm m opts) := by
  simp [RouterProxy.generate_strTraced, h, ht]

theorem router_agent_delegate_witness :
    RouterProxy.generate_strTraced (ε := String)
      (fun _ => .ok [⟨.agent (okProxy "a"), "0.9", "agent fits"⟩,
        ⟨.server "filesys", "0.2", "weaker"⟩]) "hello" [("k", "v")] =
      ([⟨"hello", [("k", "v")]⟩], .ok "a:hello") :=
  router_agent_delegate
    (fun _ => .ok [⟨.agent (okProxy "a"), "0.9", "agent fits"⟩,
      ⟨.server "filesys", "0.2", "weaker"⟩])
    "hello" [("k", "v")] ⟨.agent (okProxy "a"), "0.9", "agent fits"⟩
    [⟨.server "filesys", "0.2", "weaker"⟩] (okProxy "a") rfl rfl

/-- C1: in cumulative mode, for sequence `[A, B]`, step A is called with the
original message and options, step B with exactly `<A>\n{A output}\n</A>` and
no options, and the result is the full transcript
`<A>\n{A output}\n</A>\n\n<B>\n{B output}\n</B>`; and in general, after A and
B any remaining steps continue from that entire transcript via the cumulative
loop, which passes the whole transcript to each step and appends its tagged
block before the next step runs. -/
theorem chain_cumulative_transcript (A B : String) (reg : Registry ε)
    (pa pb : ProxyFun ε) (m : String) (opts : Options) (ra rb : String)
    (hA : reg.lookup A = some pa) (hB : reg.lookup B = some pb)
    (hra : pa m opts = .ok ra) (hrb : pb (tagBlock A ra) [] = .ok rb) :
    ChainProxy.generate_strTraced true [A, B] reg m opts =
      ([⟨A, m, opts⟩, ⟨B, tagBlock A ra, []⟩],
        .ok (tagBlock A ra ++ "\n\n" ++ tagBlock B rb)) ∧
    ∀ rest : List String,
      ChainProxy.generate_strTraced true (A :: B :: rest) reg m opts =
        (⟨A, m, opts⟩ :: ⟨B, tagBlock A ra, []⟩ ::
            (chainCumLoop reg rest (tagBlock A ra ++ "\n\n" ++ tagBlock B rb)).1,
          (chainCumLoop reg rest (tagBlock A ra ++ "\n\n" ++ tagBlock B rb)).2) := by
  constructor
  · simp [ChainProxy.generate_strTraced, chainCumLoop, hA, hB, hra, hrb]
  · intro rest
    simp [ChainProxy.generate_strTraced, chainCumLoop, hA, hB, hra, hrb]

theorem chain_cumulative_transcript_witness :
    ChainProxy.generate_strTraced true ["A", "B"] demoReg "hi" [("k", "v")] =
      ([⟨"A", "hi", [("k", "v")]⟩, ⟨"B", tagBlock "A" "a:hi", []⟩],
        .ok (tagBlock "A" "a:hi" ++ "\n\n" ++
          tagBlock "B" ("b:" ++ tagBlock "A" "a:hi"))) :=
  (chain_cumulative_transcript "A" "B" demoReg (okProxy "a") (okProxy "b") "hi"
    [("k", "v")] "a:hi" ("b:" ++ tagBlock "A" "a:hi") rfl rfl rfl rfl).1

/-- C2: in sequential mode, for any sequence `A :: B :: rest`, step B is
called with exactly A's output (no options), the running value is replaced,
and the chain continues on `rest` from B's output alone via the sequential
loop — whose one-step unfolding (second conjunct) shows every subsequent step
likewise receives exactly its predecessor's output with no options; for
`[A, B]` the final value is exactly B's output (third conjunct). -/
theorem chain_sequential_steps (A B : String) (reg : Registry ε)
    (pa pb : ProxyFun ε) (m : String) (opts : Options) (ra rb : String)
    (hA : reg.lookup A = some pa) (hB : reg.lookup B = some pb)
    (hra : pa m opts = .ok ra) (hrb : pb ra [] = .ok rb) :
    (∀ rest : List String,
      ChainProxy.generate_strTraced false (A :: B :: rest) reg m opts =
        (⟨A, m, opts⟩ :: ⟨B, ra, []⟩ :: (chainSeqLoop reg rest rb).1,
          (chainSeqLoop reg rest rb).2)) ∧
    (∀ (name : String) (rest : List String) (cur : String) (p : ProxyFun ε)
        (r : String), reg.lookup name = some p → p cur [] = .ok r →
      chainSeqLoop reg (name :: rest) cur =
        (⟨name, cur, []⟩ :: (chainSeqLoop reg rest r).1, (chainSeqLoop reg rest r).2)) ∧
    ChainProxy.generate_str false [A, B] reg m opts = .ok rb := by
  refine ⟨fun rest => ?_, fun name rest cur p r hp hr => ?_, ?_⟩
  · simp [ChainProxy.generate_strTraced, chainSeqLoop, hA, hB, hra, hrb]
  · simp [chainSeqLoop, hp, hr]
  · simp [ChainProxy.generate_str, ChainProxy.generate_strTraced, chainSeqLoop,
      hA, hB, hra, hrb]

theorem chain_sequential_steps_witness :
    ChainProxy.generate_strTraced false ["A", "B", "C"] demoReg "hi" [("k", "v")] =
      ([⟨"A", "hi", [("k", "v")]⟩, ⟨"B", "a:hi", []⟩, ⟨"C", "b:a:hi", []⟩],
        .ok "c:b:a:hi") := by
  have h := (chain_sequential_steps "A" "B" demoReg (okProxy "a") (okProxy "b")
    "hi" [("k", "v")] "a:hi" "b:a:hi" rfl rfl rfl rfl).1 ["C"]
  simpa [chainSeqLoop, demoReg, okProxy] using h

/-- C8: for a single-entry chain whose name resolves to proxy `p`, in either
mode, `generate_str` on any message and options returns exactly what calling
`p` directly with the same message and options returns (with a backend error
injected into the chain's error sum), and the one backend call it issues
carries that same message and options. -/
theorem chain_single_entry_equiv (cumulative : Bool) (n : String)
    (reg : Registry ε) (p : ProxyFun ε) (m : String) (opts : Options)
    (h : reg.lookup n = some p) :
    ChainProxy.generate_str cumulative [n] reg m opts =
      (p m opts).mapError ChainError.stepError ∧
    ChainProxy.calls cumulative [n] reg m opts = [⟨n, m, opts⟩] := by
  cases hr : p m opts <;>
    simp [ChainProxy.generate_str, ChainProxy.calls, ChainProxy.generate_strTraced,
      h, hr, Except.mapError]

theorem chain_single_entry_equiv_witness :
    ChainProxy.generate_str true ["A"] demoReg "hi" [("k", "v")] =
      (okProxy "a" "hi" [("k", "v")]).mapError ChainError.stepError ∧
    ChainProxy.calls true ["A"] demoReg "hi" [("k", "v")] =
      [⟨"A", "hi", [("k", "v")]⟩] :=
  chain_single_entry_equiv true "A" demoReg (okProxy "a") "hi" [("k", "v")] rfl

/-- Every call issued by the sequential loop carries no options. -/
theorem chainSeqLoop_options (reg : Registry ε) :
    ∀ (names : List String) (cur : String),
      ∀ c ∈ (chainSeqLoop reg names cur).1, c.options = [] := by
  intro names
  induction names with
  | nil => intro cur c hc; simp [chainSeqLoop] at hc
  | cons name rest ih =>
    intro cur c hc
    cases hl : reg.lookup name with
    | none => simp [chainSeqLoop, hl] at hc
    | some proxy =>
      cases hr : proxy cur [] with
      | error e =>
        simp [chainSeqLoop, hl, hr] at hc
        simp [hc]
      | ok resp =>
        simp [chainSeqLoop, hl, hr] at hc
        rcases hc with hc | hc
        · simp [hc]
        · exact ih resp c hc

/-- Every call issued by the cumulative loop carries no options. -/
theorem chainCumLoop_options (reg : Registry ε) :
    ∀ (names : List String) (acc : String),
      ∀ c ∈ (chainCumLoop reg names acc).1, c.options = [] := by
  intro names
  induction names with
  | nil => intro acc c hc; simp [chainCumLoop] at hc
  | cons name rest ih =>
    intro acc c hc
    cases hl : reg.lookup name with
    | none => simp [chainCumLoop, hl] at hc
    | some proxy =>
      cases hr : proxy acc [] with
      | error e =>
        simp [chainCumLoop, hl, hr] at hc
        simp [hc]
      | ok resp =>
        simp [chainCumLoop, hl, hr] at hc
        rcases hc with hc | hc
        · simp [hc]
        · exact ih _ c hc

/-- C3: for every chain in either mode, every backend call after the first
carries no options, and the first backend call (when one happens) carries
exactly the original message and the full call-time options. -/
theorem chain_options_first_only (cumulative : Bool) (seq : List String)
    (reg : Registry ε) (m : String) (opts : Options) :
    (∀ c ∈ (ChainProxy.calls cumulative seq reg m opts).tail, c.options = []) ∧
    (∀ (c : ChainCall) (cs : List ChainCall),
      ChainProxy.calls cumulative seq reg m opts = c :: cs →
      c.options = opts ∧ c.message = m) := by
  cases seq with
  | nil => simp [ChainProxy.calls, ChainProxy.generate_strTraced]
  | cons first rest =>
    cases hl : reg.lookup first with
    | none => simp [ChainProxy.calls, ChainProxy.generate_strTraced, hl]
    | some proxy =>
      cases hr : proxy m opts with
      | error e =>
        constructor
        · simp [ChainProxy.calls, ChainProxy.generate_strTraced, hl, hr]
        · intro c cs hc
          obtain ⟨h1, h2⟩ := by
            simpa [ChainProxy.calls, ChainProxy.generate_strTraced, hl, hr] using hc
          subst h1
          simp
      | ok resp =>
        cases he : rest.isEmpty with
        | true =>
          constructor
          · simp [ChainProxy.calls, ChainProxy.generate_strTraced, hl, hr, he]
          · intro c cs hc
            obtain ⟨h1, h2⟩ := by
              simpa [ChainProxy.calls, ChainProxy.generate_strTraced, hl, hr, he] using hc
            subst h1
            simp
        | false =>
          cases cumulative with
          | false =>
            constructor
            · intro c hc
              simp [ChainProxy.calls, ChainProxy.generate_strTraced, hl, hr, he] at hc
              exact chainSeqLoop_options reg rest resp c hc
            · intro c cs hc
              obtain ⟨h1, h2⟩ := by
                simpa [ChainProxy.calls, ChainProxy.generate_strTraced, hl, hr, he] using hc
              subst h1
              simp
          | true =>
            constructor
            · intro c hc
              simp [ChainProxy.calls, ChainProxy.generate_strTraced, hl, hr, he] at hc
              exact chainCumLoop_options reg rest _ c hc
            · intro c cs hc
              obtain ⟨h1, h2⟩ := by
                simpa [ChainProxy.calls, ChainProxy.generate_strTraced, hl, hr, he] using hc
              subst h1
              simp

theorem chain_options_first_only_witness :
    ChainProxy.calls false ["A", "B"] demoReg "hi" [("k", "v")] =
      ⟨"A", "hi", [("k", "v")]⟩ :: [⟨"B", "a:hi", []⟩] ∧
    (⟨"A", "hi", [("k", "v")]⟩ : ChainCall).options = [("k", "v")] ∧
    (⟨"B", "a:hi", []⟩ : ChainCall) ∈
      (ChainProxy.calls false ["A", "B"] demoReg "hi" [("k", "v")]).tail ∧
    (⟨"B", "a:hi", []⟩ : ChainCall).options = [] :=
  ⟨rfl,
    ((chain_options_first_only false ["A", "B"] demoReg "hi" [("k", "v")]).2
      ⟨"A", "hi", [("k", "v")]⟩ [⟨"B", "a:hi", []⟩] rfl).1,
    by decide,
    (chain_options_first_only false ["A", "B"] demoReg "hi" [("k", "v")]).1
      ⟨"B", "a:hi", []⟩ (by decide)⟩

/-- If the sequential loop on `xs` succeeds with value `v`, running it on
`xs ++ ys` issues the calls for `xs` and then continues on `ys` from `v`. -/
theorem chainSeqLoop_append (reg : Registry ε) (ys : List String) :
    ∀ (xs : List String) (cur v : String),
      (chainSeqLoop reg xs cur).2 = .ok v →
      chainSeqLoop reg (xs ++ ys) cur =
        ((chainSeqLoop reg xs cur).1 ++ (chainSeqLoop reg ys v).1,
          (chainSeqLoop reg ys v).2) := by
  intro xs
  induction xs with
  | nil =>
    intro cur v h
    simp [chainSeqLoop] at h
    subst h
    simp [chainSeqLoop]
  | cons name rest ih =>
    intro cur v h
    cases hl : reg.lookup name with
    | none => simp [chainSeqLoop, hl] at h
    | some proxy =>
      cases hr : proxy cur [] with
      | error e => simp [chainSeqLoop, hl, hr] at h
      | ok resp =>
        simp [chainSeqLoop, hl, hr] at h
        simp [chainSeqLoop, hl, hr, ih resp v h]

/-- If the cumulative loop on `xs` succeeds with transcript `v`, running it
on `xs ++ ys` issues the calls for `xs` and then continues on `ys` from the
transcript `v`. -/
theorem chainCumLoop_append (reg : Registry ε) (ys : List String) :
    ∀ (xs : List String) (acc v : String),
      (chainCumLoop reg xs acc).2 = .ok v →
      chainCumLoop reg (xs ++ ys) acc =
        ((chainCumLoop reg xs acc).1 ++ (chainCumLoop reg ys v).1,
          (chainCumLoop reg ys v).2) := by
  intro xs
  induction xs with
  | nil =>
    intro acc v h
    simp [chainCumLoop] at h
    subst h
    simp [chainCumLoop]
  | cons name rest ih =>
    intro acc v h
    cases hl : reg.lookup name with
    | none => simp [chainCumLoop, hl] at h
    | some proxy =>
      cases hr : proxy acc [] with
      | error e => simp [chainCumLoop, hl, hr] at h
      | ok resp =>
        simp [chainCumLoop, hl, hr] at h
        simp [chainCumLoop, hl, hr, ih _ v h]

/-- After a successful run over `xs`, a name missing from the registry stops
the sequential loop with a `KeyError` and no further backend call. -/
theorem chainSeqLoop_missing (reg : Registry ε) (bad : String) (post : List String)
    (hbad : reg.lookup bad = none) (xs : List String) (cur v : String)
    (h : (chainSeqLoop reg xs cur).2 = .ok v) :
    chainSeqLoop reg (xs ++ bad :: post) cur =
      ((chainSeqLoop reg xs cur).1, .error (.keyError bad)) := by
  rw [chainSeqLoop_append reg (bad :: post) xs cur v h]
  simp [chainSeqLoop, hbad]

/-- After a successful run over `xs`, a name missing from the registry stops
the cumulative loop with a `KeyError` and no further backend call. -/
theorem chainCumLoop_missing (reg : Registry ε) (bad : String) (post : List String)
    (hbad : reg.lookup bad = none) (xs : List String) (acc v : String)
    (h : (chainCumLoop reg xs acc).2 = .ok v) :
    chainCumLoop reg (xs ++ bad :: post) acc =
      ((chainCumLoop reg xs acc).1, .error (.keyError bad)) := by
  rw [chainCumLoop_append reg (bad :: post) xs acc v h]
  simp [chainCumLoop, hbad]

/-- After a successful run over `xs` ending at value `v`, a step whose backend
always fails stops the sequential loop right after its own call, with the
backend error carried unchanged and no later step invoked. -/
theorem chainSeqLoop_err (reg : Registry ε) (bad : String) (post : List String)
    (p : ProxyFun ε) (e : ε) (hp : reg.lookup bad = some p)
    (herr : ∀ s o, p s o = .error e) (xs : List String) (cur v : String)
    (h : (chainSeqLoop reg xs cur).2 = .ok v) :
    chainSeqLoop reg (xs ++ bad :: post) cur =
      ((chainSeqLoop reg xs cur).1 ++ [⟨bad, v, []⟩], .error (.stepError e)) := by
  rw [chainSeqLoop_append reg (bad :: post) xs cur v h]
  simp [chainSeqLoop, hp, herr v []]

/-- After a successful run over `xs` ending at transcript `v`, a step whose
backend always fails stops the cumulative loop right after its own call, with
the backend error carried unchanged and no later step invoked. -/
theorem chainCumLoop_err (reg : Registry ε) (bad : String) (post : List String)
    (p : ProxyFun ε) (e : ε) (hp : reg.lookup bad = some p)
    (herr : ∀ s o, p s o = .error e) (xs : List String) (acc v : String)
    (h : (chainCumLoop reg xs acc).2 = .ok v) :
    chainCumLoop reg (xs ++ bad :: post) acc =
      ((chainCumLoop reg xs acc).1 ++ [⟨bad, v, []⟩], .error (.stepError e)) := by
  rw [chainCumLoop_append reg (bad :: post) xs acc v h]
  simp [chainCumLoop, hp, herr v []]

/-- A successful chain run over a non-empty sequence decomposes as: the first
name resolves, its backend succeeds, and the remaining calls and result come
from the mode's loop, which itself ended successfully. -/
theorem chain_run_decompose (cumulative : Bool) (p : String) (xs : List String)
    (reg : Registry ε) (m : String) (opts : Options) (calls : List ChainCall)
    (v : String)
    (h : ChainProxy.generate_strTraced cumulative (p :: xs) reg m opts = (calls, .ok v)) :
    ∃ (fp : ProxyFun ε) (fr v2 : String),
      reg.lookup p = some fp ∧ fp m opts = .ok fr ∧
      calls = ⟨p, m, opts⟩ ::
        (if cumulative then chainCumLoop reg xs (tagBlock p fr)
          else chainSeqLoop reg xs fr).1 ∧
      (if cumulative then chainCumLoop reg xs (tagBlock p fr)
        else chainSeqLoop reg xs fr).2 = .ok v2 := by
  have hc : (ChainProxy.generate_strTraced cumulative (p :: xs) reg m opts).1 = calls := by
    rw [h]
  have hv : (ChainProxy.generate_strTraced cumulative (p :: xs) reg m opts).2 = .ok v := by
    rw [h]
  cases hl : reg.lookup p with
  | none => simp [ChainProxy.generate_strTraced, hl] at hv
  | some fp =>
    cases hf : fp m opts with
    | error e => simp [ChainProxy.generate_strTraced, hl, hf] at hv
    | ok fr =>
      cases xs with
      | nil =>
        simp [ChainProxy.generate_strTraced, hl, hf] at hc
        refine ⟨fp, fr, if cumulative then tagBlock p fr else fr, rfl, hf, ?_, ?_⟩
        · cases cumulative <;> simp [chainCumLoop, chainSeqLoop, ← hc]
        · cases cumulative <;> simp [chainCumLoop, chainSeqLoop]
      | cons q xs2 =>
        cases cumulative with
        | false =>
          simp [ChainProxy.generate_strTraced, hl, hf] at hc hv
          exact ⟨fp, fr, v, rfl, hf, by simp [← hc], by simpa using hv⟩
        | true =>
          simp [ChainProxy.generate_strTraced, hl, hf] at hc hv
          exact ⟨fp, fr, v, rfl, hf, by simp [← hc], by simpa using hv⟩

/-- C10: if a chain's sequence is a successfully-run prefix `pre` followed by
a name `bad` missing from the registry, `generate_str` raises a `KeyError`
for `bad` at the point that name is resolved: the backend calls issued are
exactly those of the prefix (earlier steps already executed; `bad`'s backend
and every later step are never called) and the result is the lookup error,
not a fallback or placeholder value.  Holds in both modes. -/
theorem chain_missing_name_keyerror (cumulative : Bool) (pre : List String)
    (bad : String) (post : List String) (reg : Registry ε) (m : String)
    (opts : Options) (calls : List ChainCall) (v : String)
    (hpre : ChainProxy.generate_strTraced cumulative pre reg m opts = (calls, .ok v))
    (hbad : reg.lookup bad = none) :
    ChainProxy.generate_strTraced cumulative (pre ++ bad :: post) reg m opts =
      (calls, .error (.keyError bad)) := by
  cases pre with
  | nil =>
    have h1 : calls = [] := by
      have h2 := congrArg Prod.fst hpre
      simpa [ChainProxy.generate_strTraced] using h2.symm
    subst h1
    simp [ChainProxy.generate_strTraced, hbad]
  | cons q xs =>
    obtain ⟨fp, fr, v2, hl, hf, hcalls, hloop⟩ :=
      chain_run_decompose cumulative q xs reg m opts calls v hpre
    have hne : (xs ++ bad :: post).isEmpty = false := by cases xs <;> simp
    cases cumulative with
    | false =>
      simp at hcalls hloop
      have happ := chainSeqLoop_missing reg bad post hbad xs fr v2 hloop
      simp only [List.cons_append]
      simp [ChainProxy.generate_strTraced, hl, hf, hne, happ, hcalls]
    | true =>
      simp at hcalls hloop
      have happ := chainCumLoop_missing reg bad post hbad xs (tagBlock q fr) v2 hloop
      simp only [List.cons_append]
      simp [ChainProxy.generate_strTraced, hl, hf, hne, happ, hcalls]

theorem chain_missing_name_keyerror_witness :
    ChainProxy.generate_strTraced false ["A", "missing", "B"] demoReg "hi" [] =
      ([⟨"A", "hi", []⟩], .error (.keyError "missing")) :=
  chain_missing_name_keyerror false ["A"] "missing" ["B"] demoReg "hi" []
    [⟨"A", "hi", []⟩] "a:hi" rfl rfl

/-- C4: if a chain's sequence is a successfully-run prefix `pre` followed by
a step `bad` whose backend fails with error `e`, `generate_str` propagates
`e` unchanged (as the step error of the chain): the backend calls issued are
exactly those of the prefix plus the single failing call to `bad`, so no
later step is invoked, and the outcome is the error, not a partial result.
Holds in both modes. -/
theorem chain_step_error_aborts (cumulative : Bool) (pre : List String)
    (bad : String) (post : List String) (reg : Registry ε) (m : String)
    (opts : Options) (calls : List ChainCall) (v : String) (p : ProxyFun ε)
    (e : ε)
    (hpre : ChainProxy.generate_strTraced cumulative pre reg m opts = (calls, .ok v))
    (hp : reg.lookup bad = some p)
    (herr : ∀ s o, p s o = .error e) :
    ∃ c : ChainCall, c.name = bad ∧
      ChainProxy.generate_strTraced cumulative (pre ++ bad :: post) reg m opts =
        (calls ++ [c], .error (.stepError e)) := by
  cases pre with
  | nil =>
    have h1 : calls = [] := by
      have h2 := congrArg Prod.fst hpre
      simpa [ChainProxy.generate_strTraced] using h2.symm
    subst h1
    exact ⟨⟨bad, m, opts⟩, rfl,
      by simp [ChainProxy.generate_strTraced, hp, herr m opts]⟩
  | cons q xs =>
    obtain ⟨fp, fr, v2, hl, hf, hcalls, hloop⟩ :=
      chain_run_decompose cumulative q xs reg m opts calls v hpre
    have hne : (xs ++ bad :: post).isEmpty = false := by cases xs <;> simp
    cases cumulative with
    | false =>
      simp at hcalls hloop
      have happ := chainSeqLoop_err reg bad post p e hp herr xs fr v2 hloop
      refine ⟨⟨bad, v2, []⟩, rfl, ?_⟩
      simp only [List.cons_append]
      simp [ChainProxy.generate_strTraced, hl, hf, hne, happ, hcalls]
    | true =>
      simp at hcalls hloop
      have happ := chainCumLoop_err reg bad post p e hp herr xs (tagBlock q fr) v2 hloop
      refine ⟨⟨bad, v2, []⟩, rfl, ?_⟩
      simp only [List.cons_append]
      simp [ChainProxy.generate_strTraced, hl, hf, hne, happ, hcalls]

theorem chain_step_error_aborts_witness :
    ∃ c : ChainCall, c.name = "E" ∧
      ChainProxy.generate_strTraced false ["A", "E", "B"] demoReg "hi" [] =
        ([⟨"A", "hi", []⟩] ++ [c], .error (.stepError "boom")) :=
  chain_step_error_aborts false ["A"] "E" ["B"] demoReg "hi" []
    [⟨"A", "hi", []⟩] "a:hi" (failProxy "boom") "boom" rfl rfl (fun _ _ => rfl)

end FastAgent
